import Mathlib

/-!
Verification of the ValtricConsulting analysis pipeline:
shallow embedding of `app/services/validation.py`, `app/services/analyzer.py`,
`app/services/consultant.py` and `app/services/enforce.py`, with proofs of the
spec's testable properties.

Python values flowing through the pipeline (JSON-ish payloads) are embedded as
the inductive `PyVal`; Python floats are embedded as exact rationals (the
arithmetic performed by the code is sums, divisions, min/max, and rounding to a
fixed number of decimal places, all exactly representable); Python ints as `Int`.
Fallible code returns `Except`.
-/

namespace Valtric

/-- A Python value as it appears in the JSON-ish payloads handled by the
pipeline: `None`, booleans, numbers (embedded as exact rationals), strings,
lists/tuples, and string-keyed dicts. -/
inductive PyVal where
  | none
  | bool (b : Bool)
  | num (q : ℚ)
  | str (s : String)
  | list (xs : List PyVal)
  | dict (kvs : List (String × PyVal))

/-- A Python dict with string keys (association list; lookups read the first
occurrence of a key, matching the unique-key semantics of Python dicts). -/
abbrev PyDict := List (String × PyVal)

/-- First binding of a key, `Option`-valued: `dict.get(k, default)` distinguishes
an absent key from a stored `None`. -/
def dictFind : PyDict → String → Option PyVal
  | [], _ => Option.none
  | (k1, v) :: rest, k => if k1 = k then some v else dictFind rest k

/-- Python `d.get(k)`: the stored value, or `None` when the key is absent. -/
def pyGet (d : PyDict) (k : String) : PyVal :=
  (dictFind d k).getD .none

/-- Python truthiness (`bool(v)`) on the embedded values. -/
def pyTruthy : PyVal → Bool
  | .none => false
  | .bool b => b
  | .num q => decide (q ≠ 0)
  | .str s => decide (s ≠ "")
  | .list xs => !xs.isEmpty
  | .dict kvs => !kvs.isEmpty

/-- Python `str(v)`. Scalars are rendered as Python renders them; the exact
textual rendering of numbers, lists and dicts (Python prints their recursive
repr) is abstracted to a canonical nonempty tag, since no property below
depends on the rendered text of a non-string value — only on the facts that
`str` of a string is itself and that `str` of any value is a string (nonempty
when the value is truthy). -/
def pyStr : PyVal → String
  | .none => "None"
  | .bool true => "True"
  | .bool false => "False"
  | .num q => "num " ++ toString q
  | .str s => s
  | .list xs => "list " ++ toString xs.length
  | .dict kvs => "dict " ++ toString kvs.length

/-- Python `float(v)` as a partial function: succeeds on numbers and booleans.
Python additionally parses numeric string literals; which strings parse is
irrelevant to every property below (all call sites fall back to a default on
failure), so strings are conservatively mapped to failure. -/
def pyFloat? : PyVal → Option ℚ
  | .num q => some q
  | .bool b => some (if b then 1 else 0)
  | _ => Option.none

/-- Python `round(q, places)` on the rational embedding: round to `places`
decimal digits. Python's float `round` is round-half-to-even on binary floats;
the half-way tie-breaking mode is immaterial to the properties below (which
only use idempotence and monotonicity of rounding), so round-half-up is used. -/
def pyRoundAt (places : ℕ) (q : ℚ) : ℚ :=
  ((⌊q * 10 ^ places + 1 / 2⌋ : ℤ) : ℚ) / 10 ^ places

/-- Rounding used by `validation._round` (6 decimal places). -/
def pyRound (q : ℚ) : ℚ := pyRoundAt 6 q

/-- Character-list prefix test (first argument is the candidate prefix). -/
def charsLead : List Char → List Char → Bool
  | [], _ => true
  | _ :: _, [] => false
  | a :: as, b :: bs => if a = b then charsLead as bs else false

/-- Python `s.startswith(pre)`. -/
def strStarts (s pre : String) : Bool := charsLead pre.data s.data

/-- A surviving citation entry of `comps_used`: the cleaned dict built by
`sanitize_analysis_payload` (a `source_id` plus optional `name`/`ticker`). -/
structure Citation where
  source_id : String
  name : Option String
  ticker : Option String
deriving DecidableEq

/-- The strict output schema produced by `sanitize_analysis_payload`
(`AnalysisPayload` in the spec; validated downstream as `AnalysisV1`). -/
structure AnalysisPayload where
  conclusion : String
  implied_multiple : ℚ
  range : ℚ × ℚ
  reasoning : String
  comps_used : List Citation
  risk_flags : List String
  confidence : ℚ
deriving DecidableEq

/-- One iteration of the `comps_used` cleaning loop of
`sanitize_analysis_payload`: keep only dict items whose `source_id` is a string
starting with `chunk:`; keep `name`/`ticker` (stringified) when truthy. -/
def cleanComp (item : PyVal) : Option Citation :=
  match item with
  | .dict kvs =>
    match pyGet kvs "source_id" with
    | .str sid =>
      if strStarts sid "chunk:" then
        some { source_id := sid
               name := if pyTruthy (pyGet kvs "name") then some (pyStr (pyGet kvs "name")) else Option.none
               ticker := if pyTruthy (pyGet kvs "ticker") then some (pyStr (pyGet kvs "ticker")) else Option.none }
      else Option.none
    | _ => Option.none
  | _ => Option.none

/-- The `comps_used` entries surviving the citation filter:
`raw_comps = payload.get("comps_used") or []`, then the cleaning loop when
it is a list (a truthy non-list yields no citations). -/
def survivingComps (payload : PyDict) : List Citation :=
  match (if pyTruthy (pyGet payload "comps_used") then pyGet payload "comps_used" else .list []) with
  | .list items => items.filterMap cleanComp
  | _ => []

/-- `risk_flags` coercion of `sanitize_analysis_payload`:
`raw_risks = payload.get("risk_flags") or []`; a list contributes `str(entry)`
for each non-`None` entry; a truthy non-list contributes its own `str`. -/
def parseRisks (payload : PyDict) : List String :=
  match (if pyTruthy (pyGet payload "risk_flags") then pyGet payload "risk_flags" else .list []) with
  | .list entries => entries.filterMap (fun e =>
      match e with
      | .none => Option.none
      | v => some (pyStr v))
  | v => [pyStr v]

/-- `conclusion` coercion: `str(c)` unless the value is missing or `None`. -/
def parsedConclusion (payload : PyDict) : String :=
  match pyGet payload "conclusion" with
  | .none => "undetermined"
  | v => pyStr v

/-- `implied_multiple` coercion: `_as_float(value, default=baseline_multiple)`. -/
def parsedImplied (payload : PyDict) (baseline_multiple : ℚ) : ℚ :=
  (pyFloat? (pyGet payload "implied_multiple")).getD baseline_multiple

/-- `range` coercion: a two-element list/tuple is parsed elementwise with
defaults `implied ∓ 0.5`; anything else yields `(implied − 0.5, implied + 0.5)`. -/
def parsedRange (payload : PyDict) (implied : ℚ) : ℚ × ℚ :=
  match pyGet payload "range" with
  | .list [a, b] => ((pyFloat? a).getD (implied - 1 / 2), (pyFloat? b).getD (implied + 1 / 2))
  | _ => (implied - 1 / 2, implied + 1 / 2)

/-- `reasoning` coercion: kept when a string, else `""`. -/
def parsedReasoning (payload : PyDict) : String :=
  match pyGet payload "reasoning" with
  | .str s => s
  | _ => ""

/-- `confidence` coercion: `_as_float(value, 0.45)` clamped into `[0, 1]`. -/
def parsedConfidence (payload : PyDict) : ℚ :=
  max 0 (min 1 ((pyFloat? (pyGet payload "confidence")).getD (9 / 20)))

/-- Append `no_citable_evidence` unless already present (the guardrail step). -/
def addEvidenceFlag (risks : List String) : List String :=
  if "no_citable_evidence" ∈ risks then risks else risks ++ ["no_citable_evidence"]

/-- Swap a pair into nondecreasing order (`if lo > hi: lo, hi = hi, lo`). -/
def orderPair (lo hi : ℚ) : ℚ × ℚ :=
  if lo > hi then (hi, lo) else (lo, hi)

/-- Helper for `dedupFirst`: drop any element already seen, keeping first
occurrences in order. -/
def dedupAux (seen : List String) : List String → List String
  | [] => []
  | x :: xs => if x ∈ seen then dedupAux seen xs else x :: dedupAux (x :: seen) xs

/-- Order-preserving first-occurrence deduplication
(`list(dict.fromkeys(risks))`). -/
def dedupFirst (l : List String) : List String := dedupAux [] l

/-- The total part of `sanitize_analysis_payload` (everything except the one
deliberate raise): field coercions, the no-citation guardrail (baseline
override, confidence cap, `no_citable_evidence` flag), range reordering,
rounding to 6 places, and risk-flag deduplication. -/
def sanitizeCore (payload : PyDict) (baseline_multiple : ℚ) : AnalysisPayload :=
  if (survivingComps payload).isEmpty then
    { conclusion := parsedConclusion payload
      implied_multiple := pyRound baseline_multiple
      range := (pyRound (orderPair (max 0 (baseline_multiple - 1 / 2)) (baseline_multiple + 1 / 2)).1,
                pyRound (orderPair (max 0 (baseline_multiple - 1 / 2)) (baseline_multiple + 1 / 2)).2)
      reasoning := parsedReasoning payload
      comps_used := survivingComps payload
      risk_flags := dedupFirst (addEvidenceFlag (parseRisks payload))
      confidence := min (parsedConfidence payload) (1 / 2) }
  else
    { conclusion := parsedConclusion payload
      implied_multiple := pyRound (parsedImplied payload baseline_multiple)
      range := (pyRound (orderPair (parsedRange payload (parsedImplied payload baseline_multiple)).1
                  (parsedRange payload (parsedImplied payload baseline_multiple)).2).1,
                pyRound (orderPair (parsedRange payload (parsedImplied payload baseline_multiple)).1
                  (parsedRange payload (parsedImplied payload baseline_multiple)).2).2)
      reasoning := parsedReasoning payload
      comps_used := survivingComps payload
      risk_flags := dedupFirst (parseRisks payload)
      confidence := parsedConfidence payload }

/-- The hard-failure condition of `sanitize_analysis_payload`:
`retrieval_required and retrieval_hits > 0 and not comps_used`. -/
def hardFailure (payload : PyDict) ( retrieval_required : Bool) ( retrieval_hits : ℤ) : Bool :=
  retrieval_required && decide (0 < retrieval_hits) && (survivingComps payload).isEmpty

/-- `validation.sanitize_analysis_payload`: raises `ValueError` exactly on the
hard-failure condition, otherwise returns the coerced payload. -/
def sanitize_analysis_payload (payload : PyDict) (baseline_multiple : ℚ)
    ( retrieval_required : Bool) ( retrieval_hits : ℤ) : Except String AnalysisPayload :=
  if hardFailure payload retrieval_required retrieval_hits then
    .error "retrieval_hits_without_citations"
  else
    .ok (sanitizeCore payload baseline_multiple)

/-! ### Basic properties of the embedding -/

theorem orderPair_le (lo hi : ℚ) : (orderPair lo hi).1 ≤ (orderPair lo hi).2 := by
  unfold orderPair
  split
  · linarith [lt_of_not_ge (fun h => absurd (by assumption : lo > hi) (not_lt_of_ge h))]
  · exact le_of_not_gt (by assumption)

theorem pyRoundAt_mono (n : ℕ) {a b : ℚ} (h : a ≤ b) : pyRoundAt n a ≤ pyRoundAt n b := by
  unfold pyRoundAt
  have hp : (0 : ℚ) < 10 ^ n := by positivity
  have hfl : ⌊a * 10 ^ n + 1 / 2⌋ ≤ ⌊b * 10 ^ n + 1 / 2⌋ := by
    apply Int.floor_le_floor
    nlinarith
  exact div_le_div_of_nonneg_right (by exact_mod_cast hfl) hp.le

theorem pyRoundAt_idem (n : ℕ) (q : ℚ) : pyRoundAt n (pyRoundAt n q) = pyRoundAt n q := by
  unfold pyRoundAt
  have hT : ((10 : ℚ)) ^ n ≠ 0 := by positivity
  rw [div_mul_cancel₀ _ hT, Int.floor_int_add]
  norm_num

theorem pyRound_mono {a b : ℚ} (h : a ≤ b) : pyRound a ≤ pyRound b := pyRoundAt_mono 6 h

theorem pyRound_idem (q : ℚ) : pyRound (pyRound q) = pyRound q := pyRoundAt_idem 6 q

theorem parsedConfidence_nonneg (p : PyDict) : 0 ≤ parsedConfidence p :=
  le_max_left 0 _

theorem parsedConfidence_le_one (p : PyDict) : parsedConfidence p ≤ 1 :=
  max_le zero_le_one (min_le_left 1 _)

theorem mem_dedupAux {a : String} :
    ∀ {l seen : List String}, a ∈ dedupAux seen l ↔ a ∈ l ∧ a ∉ seen
  | [], seen => by simp [dedupAux]
  | x :: xs, seen => by
    rw [dedupAux]
    by_cases hx : x ∈ seen
    · rw [if_pos hx, mem_dedupAux]
      constructor
      · rintro ⟨h1, h2⟩
        exact ⟨List.mem_cons_of_mem _ h1, h2⟩
      · rintro ⟨h1, h2⟩
        rcases List.mem_cons.mp h1 with rfl | h1
        · exact absurd hx h2
        · exact ⟨h1, h2⟩
    · rw [if_neg hx]
      simp only [List.mem_cons, mem_dedupAux]
      constructor
      · rintro (rfl | ⟨h1, h2⟩)
        · exact ⟨Or.inl rfl, hx⟩
        · exact ⟨Or.inr h1, fun hs => h2 (Or.inr hs)⟩
      · rintro ⟨rfl | h1, h2⟩
        · exact Or.inl rfl
        · by_cases hax : a = x
          · exact Or.inl hax
          · refine Or.inr ⟨h1, fun hs => ?_⟩
            rcases hs with h3 | h3
            · exact hax h3
            · exact h2 h3

theorem mem_dedupFirst {a : String} {l : List String} : a ∈ dedupFirst l ↔ a ∈ l := by
  unfold dedupFirst
  rw [mem_dedupAux]
  simp

theorem dedupAux_nodup : ∀ (l seen : List String), (dedupAux seen l).Nodup
  | [], _ => by simp [dedupAux]
  | x :: xs, seen => by
    rw [dedupAux]
    split
    · exact dedupAux_nodup xs seen
    · refine List.nodup_cons.mpr ⟨?_, dedupAux_nodup xs (x :: seen)⟩
      intro hmem
      exact (mem_dedupAux.mp hmem).2 (List.mem_cons_self _ _)

theorem dedupFirst_nodup (l : List String) : (dedupFirst l).Nodup := dedupAux_nodup l []

theorem dedupAux_eq_of_nodup :
    ∀ {l seen : List String}, l.Nodup → (∀ a ∈ l, a ∉ seen) → dedupAux seen l = l
  | [], seen, _, _ => by simp [dedupAux]
  | x :: xs, seen, h, hd => by
    rw [dedupAux, if_neg (hd x (List.mem_cons_self _ _))]
    rcases List.nodup_cons.mp h with ⟨hx, hxs⟩
    congr 1
    refine dedupAux_eq_of_nodup hxs ?_
    intro a ha hmem
    rcases List.mem_cons.mp hmem with rfl | h2
    · exact hx ha
    · exact hd a (List.mem_cons_of_mem _ ha) h2

theorem dedupFirst_eq_of_nodup {l : List String} (h : l.Nodup) : dedupFirst l = l :=
  dedupAux_eq_of_nodup h (by simp)

theorem mem_addEvidenceFlag (risks : List String) :
    "no_citable_evidence" ∈ addEvidenceFlag risks := by
  unfold addEvidenceFlag
  split
  · assumption
  · simp

/-- Any result of `sanitize_analysis_payload` is `sanitizeCore` of the payload. -/
theorem sanitize_ok_eq {p : PyDict} {b : ℚ} {req : Bool} {hits : ℤ} {r : AnalysisPayload}
    (h : sanitize_analysis_payload p b req hits = .ok r) : r = sanitizeCore p b := by
  unfold sanitize_analysis_payload at h
  split at h
  · cases h
  · cases h; rfl

theorem sanitizeCore_comps (p : PyDict) (b : ℚ) :
    (sanitizeCore p b).comps_used = survivingComps p := by
  unfold sanitizeCore
  split <;> rfl

theorem sanitizeCore_range_le (p : PyDict) (b : ℚ) :
    (sanitizeCore p b).range.1 ≤ (sanitizeCore p b).range.2 := by
  unfold sanitizeCore
  split
  · exact pyRound_mono (orderPair_le _ _)
  · exact pyRound_mono (orderPair_le _ _)

theorem sanitizeCore_conf_nonneg (p : PyDict) (b : ℚ) : 0 ≤ (sanitizeCore p b).confidence := by
  unfold sanitizeCore
  split
  · exact le_min (parsedConfidence_nonneg p) (by norm_num)
  · exact parsedConfidence_nonneg p

theorem sanitizeCore_conf_le_one (p : PyDict) (b : ℚ) : (sanitizeCore p b).confidence ≤ 1 := by
  unfold sanitizeCore
  split
  · exact le_trans (min_le_left _ _) (parsedConfidence_le_one p)
  · exact parsedConfidence_le_one p

theorem sanitizeCore_risk_count (p : PyDict) (b : ℚ) :
    (sanitizeCore p b).risk_flags.count "no_citable_evidence" ≤ 1 ∧
      ((sanitizeCore p b).comps_used = [] →
        (sanitizeCore p b).risk_flags.count "no_citable_evidence" = 1) := by
  unfold sanitizeCore
  split
  · refine ⟨List.nodup_iff_count_le_one.mp (dedupFirst_nodup _) _, fun _ => ?_⟩
    exact List.count_eq_one_of_mem (dedupFirst_nodup _)
      (mem_dedupFirst.mpr (mem_addEvidenceFlag _))
  · refine ⟨List.nodup_iff_count_le_one.mp (dedupFirst_nodup _) _, fun hc => ?_⟩
    rename_i hne
    exact absurd (List.isEmpty_iff.mpr hc) hne

/-! ### Round-tripping a sanitized payload back into a Python dict -/

/-- The Python dict corresponding to a cleaned citation (as built by the
cleaning loop: `source_id` always present, `name`/`ticker` only when kept). -/
def citationToDict (c : Citation) : PyVal :=
  .dict ([("source_id", PyVal.str c.source_id)] ++
    (match c.name with | some n => [("name", PyVal.str n)] | Option.none => []) ++
    (match c.ticker with | some t => [("ticker", PyVal.str t)] | Option.none => []))

/-- The Python dict corresponding to a sanitized result, as assembled into
`result` by `sanitize_analysis_payload` (this is the value a caller would feed
back into the sanitizer). -/
def payloadToDict (r : AnalysisPayload) : PyDict :=
  [("conclusion", PyVal.str r.conclusion),
   ("implied_multiple", PyVal.num r.implied_multiple),
   ("range", PyVal.list [PyVal.num r.range.1, PyVal.num r.range.2]),
   ("reasoning", PyVal.str r.reasoning),
   ("comps_used", PyVal.list (r.comps_used.map citationToDict)),
   ("risk_flags", PyVal.list (r.risk_flags.map PyVal.str)),
   ("confidence", PyVal.num r.confidence)]

/-- Invariant of citations produced by the cleaning loop: the id has the
`chunk:` prefix and kept `name`/`ticker` strings are nonempty (they came from
truthy values). -/
def GoodCit (c : Citation) : Prop :=
  strStarts c.source_id "chunk:" = true ∧
    (∀ n, c.name = some n → n ≠ "") ∧ (∀ t, c.ticker = some t → t ≠ "")

theorem pyStr_ne_empty {v : PyVal} (h : pyTruthy v = true) : pyStr v ≠ "" := by
  cases v with
  | none => simp [pyTruthy] at h
  | bool b =>
    cases b
    · simp [pyTruthy] at h
    · intro hc; simp [pyStr] at hc
  | str s =>
    simp only [pyTruthy, decide_eq_true_eq] at h
    simpa [pyStr] using h
  | num q =>
    intro hc
    have := congrArg String.data hc
    simp [pyStr, String.data_append] at this
  | list xs =>
    intro hc
    have := congrArg String.data hc
    simp [pyStr, String.data_append] at this
  | dict kvs =>
    intro hc
    have := congrArg String.data hc
    simp [pyStr, String.data_append] at this

theorem cleanComp_good {item : PyVal} {c : Citation} (h : cleanComp item = some c) :
    GoodCit c := by
  cases item with
  | dict kvs =>
    simp only [cleanComp] at h
    split at h
    · split at h
      · rename_i sid hsid hst
        injection h with h2
        subst h2
        refine ⟨hst, ?_, ?_⟩
        · intro n hn
          by_cases htr : pyTruthy (pyGet kvs "name") = true
          · rw [if_pos htr] at hn
            injection hn with hn
            subst hn
            exact pyStr_ne_empty htr
          · rw [if_neg htr] at hn
            cases hn
        · intro t ht
          by_cases htr : pyTruthy (pyGet kvs "ticker") = true
          · rw [if_pos htr] at ht
            injection ht with ht
            subst ht
            exact pyStr_ne_empty htr
          · rw [if_neg htr] at ht
            cases ht
      · cases h
    · cases h
  | none => cases h
  | bool b => cases h
  | num q => cases h
  | str s => cases h
  | list xs => cases h

theorem survivingComps_good {p : PyDict} {c : Citation} (h : c ∈ survivingComps p) :
    GoodCit c := by
  unfold survivingComps at h
  split at h
  · rcases List.mem_filterMap.mp h with ⟨a, _, ha⟩
    exact cleanComp_good ha
  · cases h

theorem cleanComp_citationToDict {c : Citation} (h : GoodCit c) :
    cleanComp (citationToDict c) = some c := by
  obtain ⟨sid, nm, tk⟩ := c
  obtain ⟨h1, h2, h3⟩ := h
  simp only at h1
  cases nm with
  | none =>
    cases tk with
    | none =>
      simp [citationToDict, cleanComp, pyGet, dictFind, pyTruthy, h1]
    | some t =>
      have htt : (t = "") = False := by simp [h3 t rfl]
      simp [citationToDict, cleanComp, pyGet, dictFind, pyTruthy, pyStr, h1, htt]
  | some n =>
    have hnt : (n = "") = False := by simp [h2 n rfl]
    cases tk with
    | none =>
      simp [citationToDict, cleanComp, pyGet, dictFind, pyTruthy, pyStr, h1, hnt]
    | some t =>
      have htt : (t = "") = False := by simp [h3 t rfl]
      simp [citationToDict, cleanComp, pyGet, dictFind, pyTruthy, pyStr, h1, hnt, htt]

theorem filterMap_cleanComp_round (l : List Citation) (hg : ∀ c ∈ l, GoodCit c) :
    l.filterMap (fun c => cleanComp (citationToDict c)) = l := by
  induction l with
  | nil => rfl
  | cons a as ih =>
    rw [List.filterMap_cons, cleanComp_citationToDict (hg a (List.mem_cons_self _ _))]
    rw [ih (fun c hc => hg c (List.mem_cons_of_mem _ hc))]

theorem pyGet_ptd_conclusion (r : AnalysisPayload) :
    pyGet (payloadToDict r) "conclusion" = .str r.conclusion := rfl

theorem pyGet_ptd_comps (r : AnalysisPayload) :
    pyGet (payloadToDict r) "comps_used" = .list (r.comps_used.map citationToDict) := rfl

theorem pyGet_ptd_risks (r : AnalysisPayload) :
    pyGet (payloadToDict r) "risk_flags" = .list (r.risk_flags.map PyVal.str) := rfl

theorem parsedConclusion_ptd (r : AnalysisPayload) :
    parsedConclusion (payloadToDict r) = r.conclusion := rfl

theorem parsedReasoning_ptd (r : AnalysisPayload) :
    parsedReasoning (payloadToDict r) = r.reasoning := rfl

theorem parsedImplied_ptd (r : AnalysisPayload) (b : ℚ) :
    parsedImplied (payloadToDict r) b = r.implied_multiple := rfl

theorem parsedRange_ptd (r : AnalysisPayload) (x : ℚ) :
    parsedRange (payloadToDict r) x = (r.range.1, r.range.2) := rfl

theorem parsedConfidence_ptd (r : AnalysisPayload) :
    parsedConfidence (payloadToDict r) = max 0 (min 1 r.confidence) := rfl

theorem survivingComps_ptd (r : AnalysisPayload) (hg : ∀ c ∈ r.comps_used, GoodCit c) :
    survivingComps (payloadToDict r) = r.comps_used := by
  unfold survivingComps
  rw [pyGet_ptd_comps]
  cases hc : r.comps_used with
  | nil => simp [pyTruthy]
  | cons a as =>
    have ht : pyTruthy (PyVal.list ((a :: as).map citationToDict)) = true := by
      simp [pyTruthy]
    rw [ht]
    simp only [if_true]
    rw [List.filterMap_map]
    exact filterMap_cleanComp_round (a :: as) (by rw [← hc]; exact hg)

theorem parseRisks_ptd (r : AnalysisPayload) :
    parseRisks (payloadToDict r) = r.risk_flags := by
  unfold parseRisks
  rw [pyGet_ptd_risks]
  cases hc : r.risk_flags with
  | nil => simp [pyTruthy]
  | cons a as =>
    have ht : pyTruthy (PyVal.list ((a :: as).map PyVal.str)) = true := by
      simp [pyTruthy]
    rw [ht]
    simp only [if_true]
    rw [List.filterMap_map]
    have hgen : ∀ l : List String, l.filterMap (fun s => Option.some s) = l := by
      intro l
      induction l with
      | nil => rfl
      | cons x xs ih => simp [ih]
    exact hgen (a :: as)

/-- Branch characterization of `sanitizeCore` when the surviving comps are
empty (the guardrail branch). -/
theorem sanitizeCore_empty_eq (p : PyDict) (b : ℚ) (hemp : survivingComps p = []) :
    sanitizeCore p b =
      { conclusion := parsedConclusion p
        implied_multiple := pyRound b
        range := (pyRound (orderPair (max 0 (b - 1 / 2)) (b + 1 / 2)).1,
                  pyRound (orderPair (max 0 (b - 1 / 2)) (b + 1 / 2)).2)
        reasoning := parsedReasoning p
        comps_used := []
        risk_flags := dedupFirst (addEvidenceFlag (parseRisks p))
        confidence := min (parsedConfidence p) (1 / 2) } := by
  unfold sanitizeCore
  rw [if_pos (List.isEmpty_iff.mpr hemp), hemp]

/-- Branch characterization of `sanitizeCore` when comps survive. -/
theorem sanitizeCore_nonempty_eq (p : PyDict) (b : ℚ) (hne : survivingComps p ≠ []) :
    sanitizeCore p b =
      { conclusion := parsedConclusion p
        implied_multiple := pyRound (parsedImplied p b)
        range := (pyRound (orderPair (parsedRange p (parsedImplied p b)).1
                    (parsedRange p (parsedImplied p b)).2).1,
                  pyRound (orderPair (parsedRange p (parsedImplied p b)).1
                    (parsedRange p (parsedImplied p b)).2).2)
        reasoning := parsedReasoning p
        comps_used := survivingComps p
        risk_flags := dedupFirst (parseRisks p)
        confidence := parsedConfidence p } := by
  unfold sanitizeCore
  rw [if_neg (by simpa [List.isEmpty_iff] using hne)]

theorem sanitizeCore_comps_good (p : PyDict) (b : ℚ) :
    ∀ c ∈ (sanitizeCore p b).comps_used, GoodCit c := by
  intro c hc
  rw [sanitizeCore_comps] at hc
  exact survivingComps_good hc

theorem orderPair_of_le {lo hi : ℚ} (h : lo ≤ hi) : orderPair lo hi = (lo, hi) := by
  unfold orderPair
  rw [if_neg (not_lt.mpr h)]

theorem clamp_of_bounds {x : ℚ} (h0 : 0 ≤ x) (h1 : x ≤ 1) : max 0 (min 1 x) = x := by
  rw [min_eq_right h1, max_eq_right h0]

theorem sanitizeCore_risks_nodup (p : PyDict) (b : ℚ) : (sanitizeCore p b).risk_flags.Nodup := by
  unfold sanitizeCore
  split
  · exact dedupFirst_nodup _
  · exact dedupFirst_nodup _

/-- Re-sanitizing a sanitized payload (with any baseline) reproduces it when
the baseline agrees. -/
theorem sanitizeCore_ptd (p : PyDict) (b : ℚ) :
    sanitizeCore (payloadToDict (sanitizeCore p b)) b = sanitizeCore p b := by
  have hptd : survivingComps (payloadToDict (sanitizeCore p b)) = (sanitizeCore p b).comps_used :=
    survivingComps_ptd _ (sanitizeCore_comps_good p b)
  have hc0 : 0 ≤ (sanitizeCore p b).confidence := sanitizeCore_conf_nonneg p b
  have hc1 : (sanitizeCore p b).confidence ≤ 1 := sanitizeCore_conf_le_one p b
  have hclamp : parsedConfidence (payloadToDict (sanitizeCore p b)) = (sanitizeCore p b).confidence := by
    rw [parsedConfidence_ptd]
    exact clamp_of_bounds hc0 hc1
  have hrisks : parseRisks (payloadToDict (sanitizeCore p b)) = (sanitizeCore p b).risk_flags :=
    parseRisks_ptd _
  have hdedup : dedupFirst (sanitizeCore p b).risk_flags = (sanitizeCore p b).risk_flags :=
    dedupFirst_eq_of_nodup (sanitizeCore_risks_nodup p b)
  by_cases hemp : survivingComps p = []
  · have hcomps : (sanitizeCore p b).comps_used = [] := by
      rw [sanitizeCore_comps, hemp]
    have hflag : "no_citable_evidence" ∈ (sanitizeCore p b).risk_flags := by
      rw [sanitizeCore_empty_eq p b hemp]
      exact mem_dedupFirst.mpr (mem_addEvidenceFlag _)
    have haf : addEvidenceFlag (sanitizeCore p b).risk_flags = (sanitizeCore p b).risk_flags := by
      unfold addEvidenceFlag
      rw [if_pos hflag]
    have hcut : (sanitizeCore p b).confidence ≤ 1 / 2 := by
      rw [sanitizeCore_empty_eq p b hemp]
      exact min_le_right _ _
    rw [sanitizeCore_empty_eq (payloadToDict (sanitizeCore p b)) b (by rw [hptd, hcomps])]
    rw [parsedConclusion_ptd, parsedReasoning_ptd, hrisks, haf, hdedup, hclamp,
      min_eq_left hcut]
    conv_rhs => rw [sanitizeCore_empty_eq p b hemp]
    rw [sanitizeCore_empty_eq p b hemp]
  · have hcomps : (sanitizeCore p b).comps_used = survivingComps p := sanitizeCore_comps p b
    have hrange : (sanitizeCore p b).range.1 ≤ (sanitizeCore p b).range.2 := sanitizeCore_range_le p b
    rw [sanitizeCore_nonempty_eq (payloadToDict (sanitizeCore p b)) b (by rw [hptd, hcomps]; exact hemp)]
    rw [parsedConclusion_ptd, parsedReasoning_ptd, parsedImplied_ptd, parsedRange_ptd,
      hrisks, hdedup, hclamp, hptd, orderPair_of_le hrange]
    have himp : pyRound (sanitizeCore p b).implied_multiple = (sanitizeCore p b).implied_multiple := by
      rw [sanitizeCore_nonempty_eq p b hemp]
      exact pyRound_idem _
    have hr1 : pyRound (sanitizeCore p b).range.1 = (sanitizeCore p b).range.1 := by
      conv_lhs => rw [sanitizeCore_nonempty_eq p b hemp]
      rw [sanitizeCore_nonempty_eq p b hemp]
      exact pyRound_idem _
    have hr2 : pyRound (sanitizeCore p b).range.2 = (sanitizeCore p b).range.2 := by
      conv_lhs => rw [sanitizeCore_nonempty_eq p b hemp]
      rw [sanitizeCore_nonempty_eq p b hemp]
      exact pyRound_idem _
    rw [himp, hr1, hr2]

/-! ### Claim C1 -/

/-- C1: `sanitize_analysis_payload` raises if and only if `retrieval_required`
is true, `retrieval_hits > 0`, and the `comps_used` entries surviving the
citation filter are empty; on every other input it returns (the structurally
valid `AnalysisPayload` given by `sanitizeCore`, whose type guarantees a string
conclusion, rational `implied_multiple`, a 2-element `range`, string
`reasoning`, a citation list, a string `risk_flags` list and a rational
`confidence`). -/
theorem C1_sanitize_raise_iff (p : PyDict) (b : ℚ) (req : Bool) (hits : ℤ) :
    (sanitize_analysis_payload p b req hits = .error "retrieval_hits_without_citations" ∨
     sanitize_analysis_payload p b req hits = .ok (sanitizeCore p b)) ∧
    ((∃ e, sanitize_analysis_payload p b req hits = .error e) ↔
      (req = true ∧ 0 < hits ∧ survivingComps p = [])) := by
  unfold sanitize_analysis_payload hardFailure
  by_cases h : (req && decide (0 < hits) && (survivingComps p).isEmpty) = true
  · rw [if_pos h]
    simp only [Bool.and_eq_true, decide_eq_true_eq, List.isEmpty_iff] at h
    exact ⟨Or.inl rfl, ⟨fun _ => ⟨h.1.1, h.1.2, h.2⟩, fun _ => ⟨_, rfl⟩⟩⟩
  · rw [if_neg h]
    refine ⟨Or.inr rfl, ⟨?_, ?_⟩⟩
    · rintro ⟨e, he⟩; cases he
    · rintro ⟨h1, h2, h3⟩
      exact absurd (by simp [h1, h2, h3, List.isEmpty_iff]) h

/-! ### Claim C2 -/

/-- Scenario A input of the spec's test properties. -/
def scenarioA : PyDict :=
  [("conclusion", .str "cheap"), ("implied_multiple", .num (73 / 10)),
   ("range", .list [.num 6, .num 8]),
   ("comps_used", .list [.str "bad-format", .dict [("source_id", .str "not-a-chunk")]]),
   ("confidence", .num (9 / 10))]

/-- C2 counterexample: the claim as stated fails for `baseline_multiple = -1`.
With empty surviving comps the guardrail sets `lo = max(0, b - 0.5) = 0` and
`hi = b + 0.5 = -0.5`, and the subsequent reordering step swaps them, so the
returned range is `(-0.5, 0)` — not `(max(0, b - 0.5), b + 0.5) = (0, -0.5)`
as the claim requires. -/
theorem C2_counterexample :
    ∃ r, sanitize_analysis_payload [] (-1) false 0 = .ok r ∧
      r.range = (-(1 / 2), 0) ∧
      r.range ≠ (pyRound (max 0 ((-1 : ℚ) - 1 / 2)), pyRound ((-1 : ℚ) + 1 / 2)) := by
  refine ⟨_, rfl, ?_, ?_⟩
  · norm_num [sanitizeCore, survivingComps, pyGet, dictFind, pyTruthy, orderPair,
      pyRound, pyRoundAt]
  · norm_num [sanitizeCore, survivingComps, pyGet, dictFind, pyTruthy, orderPair,
      pyRound, pyRoundAt]

/-- C2 (amended): when the surviving `comps_used` is empty and the hard-failure
condition does not hold, the sanitizer returns, `implied_multiple` is the
rounded baseline, the range is `(max(0, b - 0.5), b + 0.5)` rounded to six
places and put into nondecreasing order (for `b ≥ -0.5`, i.e. for every
baseline the reordering never fires, the range is exactly
`(max(0, b - 0.5), b + 0.5)` rounded), confidence is capped at `0.5`, the
`no_citable_evidence` flag is present, and `comps_used` is empty. -/
theorem C2_empty_comps_baseline (p : PyDict) (b : ℚ) (req : Bool) (hits : ℤ)
    (hemp : survivingComps p = []) (hnof : req = false ∨ ¬0 < hits) :
    sanitize_analysis_payload p b req hits = .ok (sanitizeCore p b) ∧
    (sanitizeCore p b).implied_multiple = pyRound b ∧
    (sanitizeCore p b).range =
      (pyRound (orderPair (max 0 (b - 1 / 2)) (b + 1 / 2)).1,
       pyRound (orderPair (max 0 (b - 1 / 2)) (b + 1 / 2)).2) ∧
    (-(1 / 2 : ℚ) ≤ b →
      (sanitizeCore p b).range = (pyRound (max 0 (b - 1 / 2)), pyRound (b + 1 / 2))) ∧
    (sanitizeCore p b).confidence ≤ 1 / 2 ∧
    "no_citable_evidence" ∈ (sanitizeCore p b).risk_flags ∧
    (sanitizeCore p b).comps_used = [] := by
  have hfail : hardFailure p req hits = false := by
    unfold hardFailure
    rcases hnof with h | h
    · simp [h]
    · simp [h]
  have hok : sanitize_analysis_payload p b req hits = .ok (sanitizeCore p b) := by
    unfold sanitize_analysis_payload
    rw [hfail]
    simp
  have hie : (survivingComps p).isEmpty = true := List.isEmpty_iff.mpr hemp
  have hcore : sanitizeCore p b =
      { conclusion := parsedConclusion p
        implied_multiple := pyRound b
        range := (pyRound (orderPair (max 0 (b - 1 / 2)) (b + 1 / 2)).1,
                  pyRound (orderPair (max 0 (b - 1 / 2)) (b + 1 / 2)).2)
        reasoning := parsedReasoning p
        comps_used := []
        risk_flags := dedupFirst (addEvidenceFlag (parseRisks p))
        confidence := min (parsedConfidence p) (1 / 2) } := by
    unfold sanitizeCore
    rw [if_pos hie, hemp]
  have hnoswap : -(1 / 2 : ℚ) ≤ b →
      orderPair (max 0 (b - 1 / 2)) (b + 1 / 2) = (max 0 (b - 1 / 2), b + 1 / 2) := by
    intro hb
    unfold orderPair
    rw [if_neg]
    simp only [not_lt]
    exact max_le (by linarith) (by linarith)
  rw [hcore] at hok ⊢
  refine ⟨hok, rfl, rfl, ?_, min_le_right _ _, ?_, rfl⟩
  · intro hb
    rw [hnoswap hb]
  · exact mem_dedupFirst.mpr (mem_addEvidenceFlag _)

/-- C2 witness: Scenario A. -/
theorem C2_witness :
    (survivingComps scenarioA = [] ∧ ((false = false) ∨ ¬(0 : ℤ) < 0)) ∧
    sanitize_analysis_payload scenarioA 6 false 0 = .ok (sanitizeCore scenarioA 6) ∧
    (sanitizeCore scenarioA 6).implied_multiple = 6 ∧
    (sanitizeCore scenarioA 6).range = (11 / 2, 13 / 2) ∧
    (sanitizeCore scenarioA 6).confidence ≤ 1 / 2 ∧
    "no_citable_evidence" ∈ (sanitizeCore scenarioA 6).risk_flags ∧
    (sanitizeCore scenarioA 6).comps_used = [] := by
  have hemp : survivingComps scenarioA = [] := by decide
  have h := C2_empty_comps_baseline scenarioA 6 false 0 hemp (Or.inl rfl)
  refine ⟨⟨hemp, Or.inl rfl⟩, h.1, ?_, ?_, h.2.2.2.2.1, h.2.2.2.2.2.1, h.2.2.2.2.2.2⟩
  · rw [h.2.1]
    norm_num [pyRound, pyRoundAt]
  · rw [h.2.2.2.1 (by norm_num)]
    rw [Prod.mk.injEq]
    constructor <;> norm_num [pyRound, pyRoundAt]

/-! ### Claim C3 -/

/-- C3: every payload returned by `sanitize_analysis_payload` satisfies
`range.1 ≤ range.2` and `0 ≤ confidence ≤ 1`, for all arguments. -/
theorem C3_range_ordered_confidence_bounded (p : PyDict) (b : ℚ) (req : Bool) (hits : ℤ)
    (r : AnalysisPayload) (h : sanitize_analysis_payload p b req hits = .ok r) :
    r.range.1 ≤ r.range.2 ∧ 0 ≤ r.confidence ∧ r.confidence ≤ 1 := by
  rcases sanitize_ok_eq h with rfl
  exact ⟨sanitizeCore_range_le p b, sanitizeCore_conf_nonneg p b, sanitizeCore_conf_le_one p b⟩

/-- C3 witness: the empty payload with baseline 0. -/
theorem C3_witness :
    sanitize_analysis_payload [] 0 false 0 = .ok (sanitizeCore [] 0) ∧
    ((sanitizeCore [] 0).range.1 ≤ (sanitizeCore [] 0).range.2 ∧
     0 ≤ (sanitizeCore [] 0).confidence ∧ (sanitizeCore [] 0).confidence ≤ 1) :=
  ⟨rfl, C3_range_ordered_confidence_bounded [] 0 false 0 (sanitizeCore [] 0) rfl⟩

/-! ### Claim C4 -/

/-- C4 counterexample: the biconditional fails when the input payload already
carries a `no_citable_evidence` risk flag alongside a valid `chunk:` citation —
the returned `comps_used` is nonempty yet the flag is present in the output. -/
theorem C4_counterexample :
    ∃ r, sanitize_analysis_payload
        [("comps_used", PyVal.list [PyVal.dict [("source_id", PyVal.str "chunk:a")]]),
         ("risk_flags", PyVal.list [PyVal.str "no_citable_evidence"])] 0 false 0 = .ok r ∧
      r.comps_used ≠ [] ∧ "no_citable_evidence" ∈ r.risk_flags := by
  refine ⟨_, rfl, by decide, ?_⟩
  rw [show (sanitizeCore
      [("comps_used", PyVal.list [PyVal.dict [("source_id", PyVal.str "chunk:a")]]),
       ("risk_flags", PyVal.list [PyVal.str "no_citable_evidence"])] 0).risk_flags =
      ["no_citable_evidence"] from by decide]
  simp

/-- C4 (amended): in every returned payload the `no_citable_evidence` flag
occurs at most once, and it occurs exactly once whenever the returned
`comps_used` is empty; the converse direction of the claimed biconditional does
not hold, because an input flag is preserved even alongside valid citations. -/
theorem C4_flag_count (p : PyDict) (b : ℚ) (req : Bool) (hits : ℤ)
    (r : AnalysisPayload) (h : sanitize_analysis_payload p b req hits = .ok r) :
    (r.comps_used = [] → r.risk_flags.count "no_citable_evidence" = 1) ∧
    r.risk_flags.count "no_citable_evidence" ≤ 1 := by
  rcases sanitize_ok_eq h with rfl
  exact ⟨(sanitizeCore_risk_count p b).2, (sanitizeCore_risk_count p b).1⟩

/-- C4 witness: the empty payload with baseline 0. -/
theorem C4_witness :
    sanitize_analysis_payload [] 0 false 0 = .ok (sanitizeCore [] 0) ∧
    (((sanitizeCore [] 0).comps_used = [] →
        (sanitizeCore [] 0).risk_flags.count "no_citable_evidence" = 1) ∧
      (sanitizeCore [] 0).risk_flags.count "no_citable_evidence" ≤ 1) :=
  ⟨rfl, C4_flag_count [] 0 false 0 (sanitizeCore [] 0) rfl⟩

/-! ### Claim C5 -/

/-- C5: `sanitize_analysis_payload` is idempotent — feeding a returned result
(as the dict the Python function assembles) back through the sanitizer with the
same `baseline_multiple`, `retrieval_required` and `retrieval_hits` returns the
identical result. -/
theorem C5_sanitize_idempotent (p : PyDict) (b : ℚ) (req : Bool) (hits : ℤ)
    (r : AnalysisPayload) (h : sanitize_analysis_payload p b req hits = .ok r) :
    sanitize_analysis_payload (payloadToDict r) b req hits = .ok r := by
  have hr : r = sanitizeCore p b := sanitize_ok_eq h
  have hfail : hardFailure p req hits = false := by
    cases hb : hardFailure p req hits
    · rfl
    · unfold sanitize_analysis_payload at h
      rw [hb] at h
      simp at h
  have hs : survivingComps (payloadToDict r) = survivingComps p := by
    rw [hr, survivingComps_ptd _ (sanitizeCore_comps_good p b), sanitizeCore_comps]
  have hfail2 : hardFailure (payloadToDict r) req hits = false := by
    unfold hardFailure at hfail ⊢
    rw [hs]
    exact hfail
  unfold sanitize_analysis_payload
  rw [hfail2]
  simp [hr, sanitizeCore_ptd]

/-- C5 witness: the empty payload with baseline 0, re-sanitized. -/
theorem C5_witness :
    sanitize_analysis_payload [] 0 false 0 = .ok (sanitizeCore [] 0) ∧
    sanitize_analysis_payload (payloadToDict (sanitizeCore [] 0)) 0 false 0 =
      .ok (sanitizeCore [] 0) :=
  ⟨rfl, C5_sanitize_idempotent [] 0 false 0 (sanitizeCore [] 0) rfl⟩

/-! ### consultant._heuristic_baseline -/

/-- Python `float(deal.get(key) or 0.0)` of the baseline heuristic: a falsy
value becomes `0.0`; `Option.none` models the `float()` exception on
non-numeric truthy values (callers always pass coerced numeric fields). -/
def heuristicFloat? (v : PyVal) : Option ℚ :=
  pyFloat? (if pyTruthy v then v else .num 0)

/-- The truthy `name` fields of the comp dicts
(`[c.get("name") for c in comps if c.get("name")]`, values kept raw). -/
def compNameVals (comps : List PyDict) : List PyVal :=
  comps.filterMap (fun c => if pyTruthy (pyGet c "name") then some (pyGet c "name") else Option.none)

/-- The `1e-9` epsilon of `_heuristic_baseline` (the Python float literal is
within 2⁻⁵³ of the exact rational used here; no property depends on the
difference). -/
def heuristicEps : ℚ := 1 / 1000000000

/-- `consultant._heuristic_baseline`: pure first-pass verdict from
price/EBITDA; returns the payload dict it builds. -/
def _heuristic_baseline (deal : PyDict) (comps : List PyDict) : Option PyDict :=
  match heuristicFloat? (pyGet deal "ebitda"), heuristicFloat? (pyGet deal "price") with
  | some e, some p =>
    some [("conclusion", PyVal.str
            (if 8 ≤ p / (if e > heuristicEps then e else heuristicEps) ∧
                p / (if e > heuristicEps then e else heuristicEps) ≤ 12 then "fair"
             else if 12 < p / (if e > heuristicEps then e else heuristicEps) then "rich"
             else "cheap")),
          ("implied_multiple", PyVal.num (pyRoundAt 2 (p / (if e > heuristicEps then e else heuristicEps)))),
          ("range", PyVal.list
            [PyVal.num (max (pyRoundAt 2 (p / (if e > heuristicEps then e else heuristicEps) - 1)) 0),
             PyVal.num (pyRoundAt 2 (p / (if e > heuristicEps then e else heuristicEps) + 1))]),
          ("reasoning", PyVal.str "Baseline multiple heuristic derived from price/EBITDA."),
          ("comps_used", PyVal.list (compNameVals comps)),
          ("risk_flags", PyVal.list []),
          ("confidence", PyVal.num (1 / 2))]
  | _, _ => Option.none

/-! ### consultant._classify_request -/

/-- Substring occurrence over character lists (`needle`, then haystack). -/
def chIncl (needle : List Char) : List Char → Bool
  | [] => charsLead needle []
  | c :: rest => charsLead needle (c :: rest) || chIncl needle rest

/-- Python `needle in hay`. -/
def strContains (hay needle : String) : Bool := chIncl needle.data hay.data

/-- Python `s.lower()` (ASCII case mapping; the pipeline's lexicon is ASCII). -/
def strLower (s : String) : String := ⟨s.data.map Char.toLower⟩

/-- The hard-term lexicon of `_classify_request` (note: `"comp"` is not a
member; `"multi"` matches `multi-year` by substring). -/
def CONSULTANT_HARD_TERMS : List String :=
  ["compare", "versus", "vs", "portfolio", "multi", "scenario", "sensitivity",
   "synergy", "dilution", "dcf", "discounted cash", "merger", "leveraged",
   "fx", "currency", "hedge", "tax", "rag", "retrieval"]

/-- `text = (question or "").lower()`. -/
def classifyText (question : Option String) : String := strLower (question.getD "")

/-- Word counter matching Python `len(text.split())`: counts maximal runs of
non-whitespace characters (whitespace per `Char.isWhitespace`; Python also
splits on a few rarer control characters, which no property below exercises). -/
def countWordsAux (inWord : Bool) : List Char → ℕ
  | [] => 0
  | c :: rest =>
    if c.isWhitespace then countWordsAux false rest
    else (if inWord then 0 else 1) + countWordsAux true rest

/-- `len(text.split())`. -/
def wordCount (s : String) : ℕ := countWordsAux false s.data

/-- `consultant._classify_request`: deterministic "easy"/"hard" labeling. -/
def _classify_request (question : Option String) (deal : PyDict) (comps : List PyDict) : String :=
  if CONSULTANT_HARD_TERMS.any (fun t => strContains (classifyText question) t) then "hard"
  else if !pyTruthy (pyGet deal "price") || !pyTruthy (pyGet deal "ebitda") ||
      !pyTruthy (pyGet deal "industry") then "hard"
  else if 1 < (classifyText question).data.count '?' ∨ 40 < wordCount (classifyText question)
    then "hard"
  else "easy"

/-! ### Claim C7 -/

/-- Concrete deal with multiple below 1 (price 0, EBITDA 10). -/
def dealC7 : PyDict := [("price", PyVal.num 0), ("ebitda", PyVal.num 10)]

/-- C7 counterexample: for a deal with multiple 0 (< 1) the returned range is
`(max(round(m-1, 2), 0), round(m+1, 2)) = (0, 1)`, not `(m-1, m+1) = (-1, 1)`
as the claim states — the low end is clamped at 0 (and both ends are rounded
to 2 places, which the claim also omits). -/
theorem C7_counterexample :
    ∃ d, _heuristic_baseline dealC7 [] = some d ∧
      pyGet d "range" = .list [.num 0, .num 1] ∧
      PyVal.list [PyVal.num 0, PyVal.num 1] ≠
        PyVal.list [PyVal.num ((0 : ℚ) / 10 - 1), PyVal.num ((0 : ℚ) / 10 + 1)] := by
  refine ⟨_, rfl, ?_, ?_⟩
  · simp [pyGet, dictFind]
    norm_num [pyRoundAt]
  · simp only [ne_eq, PyVal.list.injEq, List.cons.injEq, PyVal.num.injEq, and_true]
    intro h
    norm_num at h

/-- C7 (amended): on every deal whose (falsy-defaulted) price and ebitda parse
as floats, `_heuristic_baseline` is the pure function of price and ebitda with:
multiple `m = p / max(e, 1e-9)`-style epsilon floor, conclusion `"fair"` for
`m ∈ [8, 12]`, `"rich"` for `m > 12`, else `"cheap"`, range
`(max(round(m-1, 2), 0), round(m+1, 2))` (low end clamped at 0 and both ends
rounded to 2 places — the claim's `[m-1, m+1]` only after that clamping and
rounding), confidence fixed at `0.5`, and `comps_used` the raw truthy comp
names. -/
theorem C7_baseline_fields (deal : PyDict) (comps : List PyDict) (e p : ℚ)
    (he : heuristicFloat? (pyGet deal "ebitda") = some e)
    (hp : heuristicFloat? (pyGet deal "price") = some p) :
    ∃ d, _heuristic_baseline deal comps = some d ∧
      pyGet d "conclusion" = .str
        (if 8 ≤ p / (if e > heuristicEps then e else heuristicEps) ∧
            p / (if e > heuristicEps then e else heuristicEps) ≤ 12 then "fair"
         else if 12 < p / (if e > heuristicEps then e else heuristicEps) then "rich"
         else "cheap") ∧
      pyGet d "implied_multiple" =
        .num (pyRoundAt 2 (p / (if e > heuristicEps then e else heuristicEps))) ∧
      pyGet d "range" = .list
        [.num (max (pyRoundAt 2 (p / (if e > heuristicEps then e else heuristicEps) - 1)) 0),
         .num (pyRoundAt 2 (p / (if e > heuristicEps then e else heuristicEps) + 1))] ∧
      pyGet d "confidence" = .num (1 / 2) ∧
      pyGet d "comps_used" = .list (compNameVals comps) ∧
      pyGet d "risk_flags" = .list [] := by
  unfold _heuristic_baseline
  rw [he, hp]
  refine ⟨_, rfl, ?_, ?_, ?_, ?_, ?_, ?_⟩
  · simp [pyGet, dictFind]
  · simp [pyGet, dictFind]
  · simp [pyGet, dictFind]
  · simp [pyGet, dictFind]
  · simp [pyGet, dictFind]
  · simp [pyGet, dictFind]

/-- C7 witness: the deal (price 0, EBITDA 10) — conclusion `cheap`, implied
multiple 0, range `(0, 1)`, confidence `0.5`. -/
theorem C7_witness :
    (heuristicFloat? (pyGet dealC7 "ebitda") = some 10 ∧
     heuristicFloat? (pyGet dealC7 "price") = some 0) ∧
    ∃ d, _heuristic_baseline dealC7 [] = some d ∧
      pyGet d "conclusion" = .str "cheap" ∧
      pyGet d "implied_multiple" = .num 0 ∧
      pyGet d "range" = .list [.num 0, .num 1] ∧
      pyGet d "confidence" = .num (1 / 2) := by
  have he : heuristicFloat? (pyGet dealC7 "ebitda") = some 10 := by decide
  have hp : heuristicFloat? (pyGet dealC7 "price") = some 0 := by decide
  obtain ⟨d, hd, h1, h2, h3, h4, _, _⟩ := C7_baseline_fields dealC7 [] 10 0 he hp
  have hm : (0 : ℚ) / (if (10 : ℚ) > heuristicEps then 10 else heuristicEps) = 0 := by
    norm_num [heuristicEps]
  refine ⟨⟨he, hp⟩, d, hd, ?_, ?_, ?_, h4⟩
  · rw [h1, hm]
    norm_num
  · rw [h2, hm]
    norm_num [pyRoundAt]
  · rw [h3, hm]
    norm_num [pyRoundAt]

/-! ### Claim C8 -/

/-- Complete deal used for the C8 counterexample. -/
def dealC8 : PyDict :=
  [("price", PyVal.num 10), ("ebitda", PyVal.num 2), ("industry", PyVal.str "tech")]

/-- C8 counterexample: `"comp"` is not in `_classify_request`'s lexicon (it
belongs to the analyzer's retrieval lexicon, not the classifier's), so a
complete deal with the short single question `"comp"` is classified `"easy"`,
while the claim requires `"hard"`. -/
theorem C8_counterexample :
    _classify_request (some "comp") dealC8 [] = "easy" ∧
    pyTruthy (pyGet dealC8 "price") = true ∧
    pyTruthy (pyGet dealC8 "ebitda") = true ∧
    pyTruthy (pyGet dealC8 "industry") = true ∧
    wordCount (classifyText (some "comp")) = 1 ∧
    (classifyText (some "comp")).data.count '?' = 0 := by
  refine ⟨by decide, by decide, by decide, by decide, by decide, by decide⟩

/-- C8 (amended): the classifier returns `"hard"` exactly when the lowered
question contains a term of the code's lexicon (`compare`, `versus`, `vs`,
`portfolio`, `multi`, `scenario`, `sensitivity`, `synergy`, `dilution`, `dcf`,
`discounted cash`, `merger`, `leveraged`, `fx`, `currency`, `hedge`, `tax`,
`rag`, `retrieval` — `"comp"` alone is not a member, while `"multi-year"`
matches via the substring `"multi"`), or any of the deal's
price/ebitda/industry is missing or falsy, or the question has more than one
question mark or more than 40 words; otherwise it returns `"easy"`. -/
theorem C8_classifier_characterization (q : Option String) (deal : PyDict)
    (comps : List PyDict) :
    (_classify_request q deal comps = "hard" ↔
      (CONSULTANT_HARD_TERMS.any (fun t => strContains (classifyText q) t) = true ∨
       pyTruthy (pyGet deal "price") = false ∨
       pyTruthy (pyGet deal "ebitda") = false ∨
       pyTruthy (pyGet deal "industry") = false ∨
       1 < (classifyText q).data.count '?' ∨ 40 < wordCount (classifyText q))) ∧
    (_classify_request q deal comps = "hard" ∨ _classify_request q deal comps = "easy") := by
  unfold _classify_request
  split_ifs with h1 h2 h3
  · exact ⟨⟨fun _ => Or.inl h1, fun _ => rfl⟩, Or.inl rfl⟩
  · simp only [Bool.or_eq_true, Bool.not_eq_true'] at h2
    refine ⟨⟨fun _ => ?_, fun _ => rfl⟩, Or.inl rfl⟩
    rcases h2 with (h | h) | h
    · exact Or.inr (Or.inl h)
    · exact Or.inr (Or.inr (Or.inl h))
    · exact Or.inr (Or.inr (Or.inr (Or.inl h)))
  · refine ⟨⟨fun _ => ?_, fun _ => rfl⟩, Or.inl rfl⟩
    rcases h3 with h | h
    · exact Or.inr (Or.inr (Or.inr (Or.inr (Or.inl h))))
    · exact Or.inr (Or.inr (Or.inr (Or.inr (Or.inr h))))
  · refine ⟨⟨fun he => absurd he (by decide), fun hdisj => ?_⟩, Or.inr rfl⟩
    exfalso
    simp only [Bool.or_eq_true, Bool.not_eq_true'] at h2
    push_neg at h2 h3
    obtain ⟨⟨ha, hb⟩, hc⟩ := h2
    rcases hdisj with h | h | h | h | h | h
    · exact h1 h
    · exact ha h
    · exact hb h
    · exact hc h
    · omega
    · omega

/-! ### consultant._coerce_response -/

/-- Python `baseline[key]`: raises `KeyError` when absent. -/
def dictIndex (d : PyDict) (k : String) : Except String PyVal :=
  match dictFind d k with
  | some v => .ok v
  | Option.none => .error "KeyError"

/-- `consultant._coerce_response` as a function of the JSON parse outcome
(`Option.none` models `json.JSONDecodeError`, in which case the seed is
returned verbatim; `json.loads` itself is a stdlib call, so the parse is
abstracted as an optional parsed value). A parsed non-dict raises
`AttributeError` (`.get` on a non-dict), and a seed missing one of the six
accessed keys raises `KeyError`, in the source's evaluation order. -/
def _coerce_response (parsed? : Option PyVal) (baseline : PyDict) (comps : List PyDict) :
    Except String PyDict :=
  match parsed? with
  | Option.none => .ok baseline
  | some (PyVal.dict kvs) => do
    let bImplied ← dictIndex baseline "implied_multiple"
    let bRange ← dictIndex baseline "range"
    let bConf ← dictIndex baseline "confidence"
    let bConc ← dictIndex baseline "conclusion"
    let bReason ← dictIndex baseline "reasoning"
    let bRisk ← dictIndex baseline "risk_flags"
    .ok [("conclusion", (dictFind kvs "conclusion").getD bConc),
         ("implied_multiple",
           match pyFloat? ((dictFind kvs "implied_multiple").getD bImplied) with
           | some q => PyVal.num q
           | Option.none => bImplied),
         ("range",
           match (dictFind kvs "range").getD bRange with
           | PyVal.list [a, c] =>
             (match pyFloat? a, pyFloat? c with
              | some la, some hc => PyVal.list [PyVal.num la, PyVal.num hc]
              | _, _ => bRange)
           | _ => bRange),
         ("reasoning", (dictFind kvs "reasoning").getD bReason),
         ("comps_used", (dictFind kvs "comps_used").getD (PyVal.list (compNameVals comps))),
         ("risk_flags", (dictFind kvs "risk_flags").getD bRisk),
         ("confidence",
           match pyFloat? ((dictFind kvs "confidence").getD bConf) with
           | some q => PyVal.num q
           | Option.none => bConf)]
  | some _ => .error "AttributeError"

/-! ### analyzer._should_require_retrieval and enforce.enforce_evidence_rule -/

/-- The analyzer's retrieval lexicon (`_RETRIEVAL_HARD_TERMS`). -/
def RETRIEVAL_HARD_TERMS : List String :=
  ["comp", "compare", "fx", "eur", "portfolio", "multi-year", "multi year",
   "2025", "2026", "2027", "scenario", "sensitivity"]

/-- `analyzer._should_require_retrieval`: false for a missing/empty question,
else a lexicon substring test on the lowered question. -/
def _should_require_retrieval (question : Option String) : Bool :=
  match question with
  | Option.none => false
  | some q =>
    if q = "" then false
    else RETRIEVAL_HARD_TERMS.any (fun t => strContains (strLower q) t)

/-- `enforce.enforce_evidence_rule`: raises exactly when retrieval found hits
but the analysis cites nothing. -/
def enforce_evidence_rule (analysis : AnalysisPayload) ( retrieval_hits : ℤ) :
    Except String AnalysisPayload :=
  if 0 < retrieval_hits ∧ analysis.comps_used.length = 0 then
    .error "evidence_required: retrieval_hits>0 but comps_used is empty"
  else .ok analysis

/-! ### Claim C9 -/

/-- Seed payload for the C9 counterexample (all seven keys present). -/
def seedC9 : PyDict :=
  [("conclusion", PyVal.str "fair"), ("implied_multiple", PyVal.num 5),
   ("range", PyVal.list [PyVal.num 4, PyVal.num 6]), ("reasoning", PyVal.str "seed"),
   ("comps_used", PyVal.list [PyVal.str "SeedComp"]), ("risk_flags", PyVal.list []),
   ("confidence", PyVal.num 1)]

/-- Retrieved comps for the C9 counterexample. -/
def compsC9 : List PyDict := [[("name", PyVal.str "CompX")]]

/-- C9 counterexample: (i) a present-but-malformed `comps_used` (the number 42)
is kept verbatim, not replaced by the seed's value; (ii) an absent `comps_used`
defaults to the names of the retrieved comps, not to the seed's `comps_used`. -/
theorem C9_counterexample :
    ∃ r1 r2,
      _coerce_response (some (.dict [("comps_used", PyVal.num 42)])) seedC9 compsC9 = .ok r1 ∧
      pyGet r1 "comps_used" = PyVal.num 42 ∧
      _coerce_response (some (.dict [])) seedC9 compsC9 = .ok r2 ∧
      pyGet r2 "comps_used" = PyVal.list [PyVal.str "CompX"] ∧
      pyGet seedC9 "comps_used" = PyVal.list [PyVal.str "SeedComp"] ∧
      PyVal.num 42 ≠ PyVal.list [PyVal.str "SeedComp"] ∧
      PyVal.list [PyVal.str "CompX"] ≠ PyVal.list [PyVal.str "SeedComp"] := by
  refine ⟨_, _, rfl, by simp [pyGet, dictFind, compNameVals, compsC9, pyTruthy], rfl,
    by simp [pyGet, dictFind, compNameVals, compsC9, pyTruthy], rfl,
    fun h => PyVal.noConfusion h, fun h => ?_⟩
  injection h with h1
  injection h1 with h2 h3
  injection h2 with h4
  exact absurd h4 (by decide)

/-- C9 (amended): on JSON parse failure the seed is returned verbatim. On a
parsed object, `conclusion`/`reasoning`/`comps_used`/`risk_flags` are taken
verbatim whenever the key is present (malformed or not); when absent,
`conclusion`/`reasoning`/`risk_flags` fall back to the seed's values while
`comps_used` falls back to the truthy names of the retrieved comps;
`implied_multiple`/`confidence` are the float conversion of the
present-or-seed value, falling back to the seed's raw value when conversion
fails; `range` is the elementwise float conversion of the present-or-seed
value when it is a two-element sequence of convertibles, else the seed's raw
range. -/
theorem C9_coerce_fields (kvs : PyDict) (baseline : PyDict) (comps : List PyDict)
    (bI bR bC bCn bRe bRi : PyVal)
    (h1 : dictFind baseline "implied_multiple" = some bI)
    (h2 : dictFind baseline "range" = some bR)
    (h3 : dictFind baseline "confidence" = some bC)
    (h4 : dictFind baseline "conclusion" = some bCn)
    (h5 : dictFind baseline "reasoning" = some bRe)
    (h6 : dictFind baseline "risk_flags" = some bRi) :
    (∀ (b0 : PyDict) (c0 : List PyDict), _coerce_response Option.none b0 c0 = .ok b0) ∧
    ∃ r, _coerce_response (some (.dict kvs)) baseline comps = .ok r ∧
      pyGet r "conclusion" = (dictFind kvs "conclusion").getD bCn ∧
      pyGet r "implied_multiple" =
        (match pyFloat? ((dictFind kvs "implied_multiple").getD bI) with
         | some q => PyVal.num q
         | Option.none => bI) ∧
      pyGet r "range" =
        (match (dictFind kvs "range").getD bR with
         | PyVal.list [a, c] =>
           (match pyFloat? a, pyFloat? c with
            | some la, some hc => PyVal.list [PyVal.num la, PyVal.num hc]
            | _, _ => bR)
         | _ => bR) ∧
      pyGet r "reasoning" = (dictFind kvs "reasoning").getD bRe ∧
      pyGet r "comps_used" = (dictFind kvs "comps_used").getD (PyVal.list (compNameVals comps)) ∧
      pyGet r "risk_flags" = (dictFind kvs "risk_flags").getD bRi ∧
      pyGet r "confidence" =
        (match pyFloat? ((dictFind kvs "confidence").getD bC) with
         | some q => PyVal.num q
         | Option.none => bC) := by
  refine ⟨fun b0 c0 => rfl, ?_⟩
  have hmain : _coerce_response (some (.dict kvs)) baseline comps = .ok
      [("conclusion", (dictFind kvs "conclusion").getD bCn),
       ("implied_multiple",
         match pyFloat? ((dictFind kvs "implied_multiple").getD bI) with
         | some q => PyVal.num q
         | Option.none => bI),
       ("range",
         match (dictFind kvs "range").getD bR with
         | PyVal.list [a, c] =>
           (match pyFloat? a, pyFloat? c with
            | some la, some hc => PyVal.list [PyVal.num la, PyVal.num hc]
            | _, _ => bR)
         | _ => bR),
       ("reasoning", (dictFind kvs "reasoning").getD bRe),
       ("comps_used", (dictFind kvs "comps_used").getD (PyVal.list (compNameVals comps))),
       ("risk_flags", (dictFind kvs "risk_flags").getD bRi),
       ("confidence",
         match pyFloat? ((dictFind kvs "confidence").getD bC) with
         | some q => PyVal.num q
         | Option.none => bC)] := by
    unfold _coerce_response dictIndex
    rw [h1, h2, h3, h4, h5, h6]
    rfl
  refine ⟨_, hmain, ?_, ?_, ?_, ?_, ?_, ?_, ?_⟩ <;> simp [pyGet, dictFind]

/-- C9 witness: a parsed object with a malformed numeric field falls back to
the seed's values. -/
theorem C9_witness :
    (dictFind seedC9 "implied_multiple" = some (PyVal.num 5) ∧
     dictFind seedC9 "range" = some (PyVal.list [PyVal.num 4, PyVal.num 6]) ∧
     dictFind seedC9 "confidence" = some (PyVal.num 1) ∧
     dictFind seedC9 "conclusion" = some (PyVal.str "fair") ∧
     dictFind seedC9 "reasoning" = some (PyVal.str "seed") ∧
     dictFind seedC9 "risk_flags" = some (PyVal.list [])) ∧
    ∃ r, _coerce_response (some (.dict [("implied_multiple", PyVal.str "oops"),
        ("range", PyVal.str "bad")])) seedC9 compsC9 = .ok r ∧
      pyGet r "implied_multiple" = PyVal.num 5 ∧
      pyGet r "range" = PyVal.list [PyVal.num 4, PyVal.num 6] ∧
      pyGet r "confidence" = PyVal.num 1 ∧
      pyGet r "comps_used" = PyVal.list [PyVal.str "CompX"] := by
  obtain ⟨hnone, r, hr, hc1, hc2, hc3, hc4, hc5, hc6, hc7⟩ :=
    C9_coerce_fields [("implied_multiple", PyVal.str "oops"), ("range", PyVal.str "bad")]
      seedC9 compsC9 (PyVal.num 5) (PyVal.list [PyVal.num 4, PyVal.num 6]) (PyVal.num 1)
      (PyVal.str "fair") (PyVal.str "seed") (PyVal.list []) rfl rfl rfl rfl rfl rfl
  refine ⟨⟨rfl, rfl, rfl, rfl, rfl, rfl⟩, r, hr, ?_, ?_, ?_, ?_⟩
  · rw [hc2]
    simp [dictFind, pyFloat?]
  · rw [hc3]
    simp [dictFind]
  · rw [hc7]
    simp [dictFind, pyFloat?]
  · rw [hc5]
    simp [dictFind, compNameVals, compsC9, pyGet, pyTruthy]

/-! ### Claim C10 -/

/-- C10: in `analyze_core` the flag passed to sanitization is
`_should_require_retrieval(question) or bool(retrieval_hits)`, so the
sanitizer's hard-failure condition collapses to `retrieval_hits > 0` and no
surviving citations — exactly the condition `enforce_evidence_rule` checks —
for every question, payload and hit count. -/
theorem C10_retrieval_required_equiv (q : Option String) (p : PyDict) (b : ℚ) (hits : ℕ) :
    ((∃ e, sanitize_analysis_payload p b
        (_should_require_retrieval q || decide (0 < hits)) (hits : ℤ) = .error e) ↔
      (0 < hits ∧ survivingComps p = [])) ∧
    (∀ (r : AnalysisPayload) (h2 : ℤ),
      (∃ e, enforce_evidence_rule r h2 = .error e) ↔ (0 < h2 ∧ r.comps_used = [])) := by
  constructor
  · constructor
    · rintro ⟨e, he⟩
      unfold sanitize_analysis_payload hardFailure at he
      by_cases hc : ((_should_require_retrieval q || decide (0 < hits)) &&
          decide ((0 : ℤ) < (hits : ℤ)) && (survivingComps p).isEmpty) = true
      · simp only [Bool.and_eq_true, decide_eq_true_eq, List.isEmpty_iff] at hc
        exact ⟨by exact_mod_cast hc.1.2, hc.2⟩
      · rw [if_neg hc] at he
        cases he
    · rintro ⟨hpos, hcomp⟩
      refine ⟨"retrieval_hits_without_citations", ?_⟩
      unfold sanitize_analysis_payload hardFailure
      have hz : (0 : ℤ) < (hits : ℤ) := by exact_mod_cast hpos
      rw [if_pos (by simp [hpos, hz, hcomp, List.isEmpty_iff])]
  · intro r h2
    unfold enforce_evidence_rule
    split_ifs with hc
    · exact ⟨fun _ => ⟨hc.1, List.length_eq_zero.mp hc.2⟩, fun _ => ⟨_, rfl⟩⟩
    · constructor
      · rintro ⟨e, he⟩
        cases he
      · rintro ⟨ha, hb⟩
        exact absurd ⟨ha, by rw [hb]; rfl⟩ hc

/-! ### analyzer._fallback_citations and the recovery path of analyze_core -/

/-- Python `d[k] = v`: replace the value at the first occurrence of the key,
keeping its position; append when the key is absent. -/
def dictSet : PyDict → String → PyVal → PyDict
  | [], k, v => [(k, v)]
  | (k1, v1) :: rest, k, v =>
    if k1 = k then (k, v) :: rest else (k1, v1) :: dictSet rest k v

/-- Python comparison `value > 0.6`: numbers and booleans compare against the
float; any other value raises `TypeError`. -/
def pyGT06 (v : PyVal) : Except String Bool :=
  match v with
  | .num q => .ok (decide (q > 3 / 5))
  | .bool b => .ok (decide ((if b then (1 : ℚ) else 0) > 3 / 5))
  | _ => .error "TypeError"

/-- Python `list(raw_output.get("risk_flags") or [])`: a falsy value gives
`[]`; a list is copied; a string iterates its characters and a dict its keys;
a truthy number or boolean raises `TypeError`. -/
def listCoerce (v : PyVal) : Except String (List PyVal) :=
  if pyTruthy v = false then .ok []
  else match v with
    | .list xs => .ok xs
    | .str s => .ok (s.data.map (fun c => PyVal.str (String.singleton c)))
    | .dict kvs => .ok (kvs.map (fun kv => PyVal.str kv.1))
    | _ => .error "TypeError"

/-- `comp.get("meta", {}).get("section")`: raises `AttributeError` when a
stored `meta` is not a dict. -/
def metaSection (comp : PyDict) : Except String PyVal :=
  match (dictFind comp "meta").getD (PyVal.dict []) with
  | PyVal.dict m => .ok (pyGet m "section")
  | _ => .error "AttributeError"

/-- `source_name = comp.get("source") or comp.get("meta", {}).get("section")`. -/
def fbSourceName (comp : PyDict) : Except String PyVal :=
  if pyTruthy (pyGet comp "source") then .ok (pyGet comp "source") else metaSection comp

/-- The `model_dump()` of one synthesized `CompCitation`
(`source_id = f"chunk:{chunk_id}"`; the name attribute is assigned unvalidated
when the source name is truthy, and dumped as `None` otherwise; `ticker` stays
`None`). -/
def fbCitation (cid : PyVal) (sn : PyVal) : PyDict :=
  [("source_id", PyVal.str ("chunk:" ++ pyStr cid)),
   ("name", if pyTruthy sn then sn else PyVal.none),
   ("ticker", PyVal.none)]

/-- `chunk_id = comp.get("chunk_id") or comp.get("id")`. -/
def fbChunkId (comp : PyDict) : PyVal :=
  if pyTruthy (pyGet comp "chunk_id") then pyGet comp "chunk_id" else pyGet comp "id"

/-- The loop of `_fallback_citations`: skip comps without a truthy chunk id,
append a citation per usable comp, stop once `limit` citations are collected. -/
def fbLoop (limit : ℕ) (acc : List PyDict) : List PyDict → Except String (List PyDict)
  | [] => .ok acc
  | comp :: rest =>
    if pyTruthy (fbChunkId comp) = false then fbLoop limit acc rest
    else do
      let sn ← fbSourceName comp
      if limit ≤ (acc ++ [fbCitation (fbChunkId comp) sn]).length then
        .ok (acc ++ [fbCitation (fbChunkId comp) sn])
      else fbLoop limit (acc ++ [fbCitation (fbChunkId comp) sn]) rest

/-- `analyzer._fallback_citations` (returning the `model_dump()` dicts that
`analyze_core` injects). -/
def _fallback_citations (comps : List PyDict) (limit : ℕ) : Except String (List PyDict) :=
  fbLoop limit [] comps

/-- `raw_output["comps_used"] = [c.model_dump() for c in fallback]`. -/
def injectComps (raw_output : PyDict) (fallback : List PyDict) : PyDict :=
  dictSet raw_output "comps_used" (PyVal.list (fallback.map PyVal.dict))

/-- `if "fallback_citations_injected" not in risk_flags: risk_flags.append(...)`
(Python `in` compares with `==`; only an equal string matches the flag). -/
def injectFlag (risks : List PyVal) : List PyVal :=
  if risks.any (fun v =>
      match v with
      | PyVal.str s => decide (s = "fallback_citations_injected")
      | _ => false) then risks
  else risks ++ [PyVal.str "fallback_citations_injected"]

/-- `raw_output.get("confidence") is None or raw_output.get("confidence", 0.0) > 0.6`
(short-circuit: the comparison — which may raise `TypeError` — only runs on a
non-`None` value). -/
def capCheck (raw : PyDict) : Except String Bool :=
  match pyGet raw "confidence" with
  | PyVal.none => Except.ok true
  | v => pyGT06 v

/-- Last step of the recovery: optionally reset confidence to 0.55, then
re-run sanitization. -/
def recoverStep3 (raw2 : PyDict) (b : ℚ) (req : Bool) (hits : ℤ) (needCap : Bool) :
    Except String AnalysisPayload :=
  sanitize_analysis_payload
    (if needCap then dictSet raw2 "confidence" (PyVal.num (11 / 20)) else raw2) b req hits

/-- Middle step of the recovery: append the flag, store the risk list, check
the confidence cap. -/
def recoverStep2 (raw1 : PyDict) (b : ℚ) (req : Bool) (hits : ℤ) (risks : List PyVal) :
    Except String AnalysisPayload :=
  capCheck (dictSet raw1 "risk_flags" (PyVal.list (injectFlag risks))) >>=
    recoverStep3 (dictSet raw1 "risk_flags" (PyVal.list (injectFlag risks))) b req hits

/-- First step of the recovery, given the synthesized fallback citations:
re-raise when there are none, else inject them and continue. -/
def recoverStep (raw_output : PyDict) (b : ℚ) (req : Bool) (hits : ℤ) (e : String)
    (fallback : List PyDict) : Except String AnalysisPayload :=
  if fallback.isEmpty then .error e
  else
    listCoerce (pyGet (injectComps raw_output fallback) "risk_flags") >>=
      recoverStep2 (injectComps raw_output fallback) b req hits

/-- The sanitize-and-recover phase of `analyzer.analyze_core`: try
sanitization; on its hard failure synthesize fallback citations from the
retrieved comps (no candidates → re-raise the original error), inject them
together with the `fallback_citations_injected` risk flag, set confidence to
0.55 when it is absent/None or greater than 0.6, and re-run sanitization. -/
def analyze_sanitize_phase (raw_output : PyDict) (comps : List PyDict)
    (baseline_multiple : ℚ) ( retrieval_required : Bool) ( retrieval_hits : ℤ) :
    Except String AnalysisPayload :=
  match sanitize_analysis_payload raw_output baseline_multiple retrieval_required retrieval_hits with
  | .ok r => .ok r
  | .error e =>
    _fallback_citations comps 3 >>=
      recoverStep raw_output baseline_multiple retrieval_required retrieval_hits e

/-! ### Lemmas about the recovery path -/

theorem dictFind_dictSet_self (d : PyDict) (k : String) (v : PyVal) :
    dictFind (dictSet d k v) k = some v := by
  induction d with
  | nil => simp [dictSet, dictFind]
  | cons kv rest ih =>
    obtain ⟨k1, v1⟩ := kv
    by_cases hk : k1 = k
    · simp [dictSet, dictFind, hk]
    · simp [dictSet, dictFind, hk, ih]

theorem dictFind_dictSet_other (d : PyDict) (k k2 : String) (v : PyVal) (h : k2 ≠ k) :
    dictFind (dictSet d k v) k2 = dictFind d k2 := by
  have h2 : ¬(k = k2) := fun he => h he.symm
  induction d with
  | nil => simp [dictSet, dictFind, h2]
  | cons kv rest ih =>
    obtain ⟨k1, v1⟩ := kv
    by_cases hk : k1 = k
    · subst hk
      simp [dictSet, dictFind, h2]
    · simp [dictSet, dictFind, hk, ih]

theorem pyGet_dictSet_self (d : PyDict) (k : String) (v : PyVal) :
    pyGet (dictSet d k v) k = v := by
  unfold pyGet
  rw [dictFind_dictSet_self]
  rfl

theorem pyGet_dictSet_other (d : PyDict) (k k2 : String) (v : PyVal) (h : k2 ≠ k) :
    pyGet (dictSet d k v) k2 = pyGet d k2 := by
  unfold pyGet
  rw [dictFind_dictSet_other d k k2 v h]

theorem charsLead_append : ∀ (l r : List Char), charsLead l (l ++ r) = true
  | [], _ => rfl
  | c :: cs, r => by simp [charsLead, charsLead_append cs r]

theorem strStarts_append (pre s : String) : strStarts (pre ++ s) pre = true := by
  unfold strStarts
  rw [String.data_append]
  exact charsLead_append _ _

theorem pyTruthy_none : pyTruthy PyVal.none = false := rfl

theorem cleanComp_fbCitation (cid sn : PyVal) :
    ∃ c, cleanComp (PyVal.dict (fbCitation cid sn)) = some c := by
  have h1 : strStarts ("chunk:" ++ pyStr cid) "chunk:" = true := strStarts_append _ _
  by_cases hsn : pyTruthy sn = true
  · exact ⟨⟨"chunk:" ++ pyStr cid, some (pyStr sn), Option.none⟩,
      by simp [cleanComp, fbCitation, pyGet, dictFind, h1, hsn, pyTruthy_none]⟩
  · exact ⟨⟨"chunk:" ++ pyStr cid, Option.none, Option.none⟩,
      by simp [cleanComp, fbCitation, pyGet, dictFind, h1, hsn, pyTruthy_none]⟩

/-- Shape and length invariant of the `_fallback_citations` loop. -/
theorem fbLoop_ok : ∀ (comps : List PyDict) (limit : ℕ) (acc fb : List PyDict),
    fbLoop limit acc comps = .ok fb →
    (∀ d ∈ acc, ∃ cid sn, d = fbCitation cid sn) →
    acc.length < limit →
    (∀ d ∈ fb, ∃ cid sn, d = fbCitation cid sn) ∧ fb.length ≤ limit
  | [], limit, acc, fb, h, hshape, hlen => by
    rw [fbLoop] at h
    cases h
    exact ⟨hshape, le_of_lt hlen⟩
  | comp :: rest, limit, acc, fb, h, hshape, hlen => by
    rw [fbLoop] at h
    split_ifs at h with hskip
    · exact fbLoop_ok rest limit acc fb h hshape hlen
    · cases hsn : fbSourceName comp with
      | error e =>
        rw [hsn] at h
        cases h
      | ok sn =>
        rw [hsn] at h
        replace h : (if limit ≤ (acc ++ [fbCitation (fbChunkId comp) sn]).length then
            Except.ok (acc ++ [fbCitation (fbChunkId comp) sn])
          else fbLoop limit (acc ++ [fbCitation (fbChunkId comp) sn]) rest) = Except.ok fb := h
        have hsh2 : ∀ d ∈ acc ++ [fbCitation (fbChunkId comp) sn],
            ∃ cid sn0, d = fbCitation cid sn0 := by
          intro d hd
          rcases List.mem_append.mp hd with hd | hd
          · exact hshape d hd
          · rcases List.mem_singleton.mp hd with rfl
            exact ⟨_, _, rfl⟩
        split_ifs at h with hlim
        · cases h
          refine ⟨hsh2, ?_⟩
          rw [List.length_append, List.length_singleton]
          omega
        · exact fbLoop_ok rest limit _ fb h hsh2 (by push_neg at hlim; simpa using hlim)

/-- When no comp has a usable chunk id, no fallback citations are produced. -/
theorem fbLoop_all_skipped : ∀ (comps : List PyDict) (limit : ℕ) (acc : List PyDict),
    (∀ c ∈ comps, pyTruthy (fbChunkId c) = false) →
    fbLoop limit acc comps = .ok acc
  | [], _, _, _ => rfl
  | comp :: rest, limit, acc, h => by
    rw [fbLoop]
    rw [if_pos (h comp (List.mem_cons_self _ _))]
    exact fbLoop_all_skipped rest limit acc (fun c hc => h c (List.mem_cons_of_mem _ hc))

theorem injectFlag_ne_nil (risks : List PyVal) : injectFlag risks ≠ [] := by
  unfold injectFlag
  split_ifs with hany
  · rcases List.any_eq_true.mp hany with ⟨v, hv, _⟩
    exact List.ne_nil_of_mem hv
  · simp

theorem mem_str_injectFlag (risks : List PyVal) :
    PyVal.str "fallback_citations_injected" ∈ injectFlag risks := by
  unfold injectFlag
  split_ifs with hany
  · rcases List.any_eq_true.mp hany with ⟨v, hv, hp⟩
    cases v with
    | str s =>
      simp only [decide_eq_true_eq] at hp
      rwa [hp] at hv
    | none => simp at hp
    | bool b => simp at hp
    | num q => simp at hp
    | list xs => simp at hp
    | dict kvs => simp at hp
  · exact List.mem_append.mpr (Or.inr (List.mem_singleton.mpr rfl))

/-! ### Claim C6 -/

/-- C6 (amended): when sanitization raises inside `analyze_core` — if no
retrieved comp has a usable chunk id, no fallback citations are synthesized
and the original failure propagates uncaught; if at least one fallback
citation is synthesized (and the raw payload's `risk_flags` is list-coercible
and its `confidence` is absent/None/comparable, as on every payload the
pipeline produces), the recovery injects at most 3 citations, re-runs
sanitization successfully, the result cites at least one comp and carries the
`fallback_citations_injected` flag exactly once, and confidence is reset to
0.55 exactly when the raw confidence was absent/None or **greater than 0.6**
(the code's threshold; not 0.55 as claimed), otherwise the clamped raw
confidence is kept. -/
theorem C6_recovery (raw : PyDict) (comps : List PyDict) (b : ℚ) (req : Bool)
    (hits : ℤ) (e : String)
    (hfail : sanitize_analysis_payload raw b req hits = .error e) :
    ((∀ c ∈ comps, pyTruthy (fbChunkId c) = false) → _fallback_citations comps 3 = .ok []) ∧
    (_fallback_citations comps 3 = .ok [] →
      analyze_sanitize_phase raw comps b req hits = .error e) ∧
    (∀ fb, _fallback_citations comps 3 = .ok fb → fb ≠ [] →
      ∀ risks, listCoerce (pyGet raw "risk_flags") = .ok risks →
      ∀ cap, capCheck raw = .ok cap →
      ∃ r, analyze_sanitize_phase raw comps b req hits = .ok r ∧
        r.comps_used ≠ [] ∧
        r.comps_used.length ≤ fb.length ∧ fb.length ≤ 3 ∧
        r.risk_flags.count "fallback_citations_injected" = 1 ∧
        (cap = true → r.confidence = 11 / 20) ∧
        (cap = false → r.confidence = parsedConfidence raw)) := by
  refine ⟨fun hall => fbLoop_all_skipped comps 3 [] hall, ?_, ?_⟩
  · intro hfb0
    unfold analyze_sanitize_phase
    rw [hfail, hfb0]
    rfl
  · intro fb hfb hfbne risks hrisks cap hcap
    have hempty : fb.isEmpty = false := by
      simpa [List.isEmpty_iff] using hfbne
    have hrisks1 : listCoerce (pyGet (injectComps raw fb) "risk_flags") = .ok risks := by
      unfold injectComps
      rw [pyGet_dictSet_other _ _ _ _ (by decide)]
      exact hrisks
    have hphase : analyze_sanitize_phase raw comps b req hits =
        recoverStep2 (injectComps raw fb) b req hits risks := by
      unfold analyze_sanitize_phase
      rw [hfail, hfb]
      show recoverStep raw b req hits e fb = _
      unfold recoverStep
      rw [hempty, hrisks1]
      rfl
    have hcap2 : capCheck (dictSet (injectComps raw fb) "risk_flags"
        (PyVal.list (injectFlag risks))) = .ok cap := by
      unfold capCheck at hcap ⊢
      unfold injectComps
      rw [pyGet_dictSet_other _ _ _ _ (by decide), pyGet_dictSet_other _ _ _ _ (by decide)]
      exact hcap
    have hphase2 : recoverStep2 (injectComps raw fb) b req hits risks =
        recoverStep3 (dictSet (injectComps raw fb) "risk_flags"
          (PyVal.list (injectFlag risks))) b req hits cap := by
      unfold recoverStep2
      rw [hcap2]
      rfl
    set raw2m := dictSet (injectComps raw fb) "risk_flags" (PyVal.list (injectFlag risks))
      with hraw2m
    set raw3 := if cap then dictSet raw2m "confidence" (PyVal.num (11 / 20)) else raw2m
      with hraw3
    have hcomps3 : pyGet raw3 "comps_used" = PyVal.list (fb.map PyVal.dict) := by
      rw [hraw3]
      cases cap with
      | true =>
        rw [if_pos rfl, pyGet_dictSet_other _ _ _ _ (by decide), hraw2m,
          pyGet_dictSet_other _ _ _ _ (by decide)]
        unfold injectComps
        exact pyGet_dictSet_self _ _ _
      | false =>
        rw [if_neg (by simp), hraw2m, pyGet_dictSet_other _ _ _ _ (by decide)]
        unfold injectComps
        exact pyGet_dictSet_self _ _ _
    have hrisk3 : pyGet raw3 "risk_flags" = PyVal.list (injectFlag risks) := by
      rw [hraw3]
      cases cap with
      | true =>
        rw [if_pos rfl, pyGet_dictSet_other _ _ _ _ (by decide), hraw2m]
        exact pyGet_dictSet_self _ _ _
      | false =>
        rw [if_neg (by simp), hraw2m]
        exact pyGet_dictSet_self _ _ _
    have hsurv : survivingComps raw3 = (fb.map PyVal.dict).filterMap cleanComp := by
      unfold survivingComps
      rw [hcomps3]
      cases fb with
      | nil => exact absurd rfl hfbne
      | cons d0 rest => simp [pyTruthy]
    have hshape := (fbLoop_ok comps 3 [] fb hfb (by simp) (by norm_num)).1
    have hlen3 : fb.length ≤ 3 := (fbLoop_ok comps 3 [] fb hfb (by simp) (by norm_num)).2
    have hsne : survivingComps raw3 ≠ [] := by
      rw [hsurv]
      cases fb with
      | nil => exact absurd rfl hfbne
      | cons d0 rest =>
        obtain ⟨cid, sn, rfl⟩ := hshape d0 (List.mem_cons_self _ _)
        obtain ⟨c, hc⟩ := cleanComp_fbCitation cid sn
        simp [List.map_cons, List.filterMap_cons, hc]
    have hsan : sanitize_analysis_payload raw3 b req hits = .ok (sanitizeCore raw3 b) := by
      unfold sanitize_analysis_payload hardFailure
      have hie : (survivingComps raw3).isEmpty = false := by
        simpa [List.isEmpty_iff] using hsne
      simp [hie]
    have hflag : "fallback_citations_injected" ∈ parseRisks raw3 := by
      unfold parseRisks
      rw [hrisk3]
      have htr : pyTruthy (PyVal.list (injectFlag risks)) = true := by
        cases hi : injectFlag risks with
        | nil => exact absurd hi (injectFlag_ne_nil risks)
        | cons a as => simp [pyTruthy]
      rw [htr]
      simp only [if_true]
      exact List.mem_filterMap.mpr ⟨PyVal.str "fallback_citations_injected",
        mem_str_injectFlag risks, rfl⟩
    have hcount : (sanitizeCore raw3 b).risk_flags.count "fallback_citations_injected" = 1 := by
      rw [sanitizeCore_nonempty_eq raw3 b hsne]
      exact List.count_eq_one_of_mem (dedupFirst_nodup _) (mem_dedupFirst.mpr hflag)
    have hcompsne : (sanitizeCore raw3 b).comps_used ≠ [] := by
      rw [sanitizeCore_comps]
      exact hsne
    have hcomplen : (sanitizeCore raw3 b).comps_used.length ≤ fb.length := by
      rw [sanitizeCore_comps, hsurv]
      calc ((fb.map PyVal.dict).filterMap cleanComp).length
        _ ≤ (fb.map PyVal.dict).length := List.length_filterMap_le _ _
        _ = fb.length := List.length_map _ _
    have hconfcore : (sanitizeCore raw3 b).confidence = parsedConfidence raw3 := by
      rw [sanitizeCore_nonempty_eq raw3 b hsne]
    refine ⟨sanitizeCore raw3 b, ?_, hcompsne, hcomplen, hlen3, hcount, ?_, ?_⟩
    · rw [hphase, hphase2]
      show sanitize_analysis_payload raw3 b req hits = _
      exact hsan
    · intro hc
      subst hc
      rw [hconfcore, hraw3, if_pos rfl]
      unfold parsedConfidence
      rw [pyGet_dictSet_self]
      show max 0 (min 1 ((11 : ℚ) / 20)) = 11 / 20
      norm_num
    · intro hc
      subst hc
      rw [hconfcore, hraw3, if_neg (by simp)]
      unfold parsedConfidence
      rw [hraw2m, pyGet_dictSet_other _ _ _ _ (by decide)]
      unfold injectComps
      rw [pyGet_dictSet_other _ _ _ _ (by decide)]

/-- Raw payload with confidence 0.58 (between 0.55 and 0.6) and no citations. -/
def rawC6 : PyDict :=
  [("confidence", PyVal.num (29 / 50)), ("risk_flags", PyVal.list [])]

/-- One retrieved comp with a usable chunk id. -/
def compsC6l : List PyDict := [[("chunk_id", PyVal.str "c1")]]

/-- C6 counterexample: with raw confidence 0.58 — which is greater than 0.55 —
the recovery path keeps 0.58 instead of capping it at 0.55, because the code's
reset threshold is `> 0.6`, not the claimed `> 0.55`. -/
theorem C6_counterexample :
    ∃ r, analyze_sanitize_phase rawC6 compsC6l 1 true 1 = .ok r ∧
      r.confidence = 29 / 50 ∧ (11 / 20 : ℚ) < 29 / 50 ∧ (29 / 50 : ℚ) ≠ 11 / 20 := by
  have h29 : ¬((29 : ℚ) / 50 > 3 / 5) := by norm_num
  have hfail : sanitize_analysis_payload rawC6 1 true 1 =
      .error "retrieval_hits_without_citations" := rfl
  have hcap : capCheck rawC6 = .ok false := by
    show Except.ok (decide ((29 : ℚ) / 50 > 3 / 5)) = Except.ok false
    rw [decide_eq_false h29]
  obtain ⟨r, h1, _, _, _, _, _, h7⟩ :=
    (C6_recovery rawC6 compsC6l 1 true 1 _ hfail).2.2
      [fbCitation (PyVal.str "c1") PyVal.none] rfl (by simp)
      [] rfl false hcap
  refine ⟨r, h1, ?_, by norm_num, by norm_num⟩
  rw [h7 rfl]
  show max 0 (min 1 ((29 : ℚ) / 50)) = 29 / 50
  norm_num

/-- C6 witness: with no retrievable comps the failure propagates; with one
usable comp and an unset confidence the recovery succeeds, cites the comp,
carries the flag once, and sets confidence to 0.55. -/
theorem C6_witness :
    sanitize_analysis_payload [] 1 true 1 = .error "retrieval_hits_without_citations" ∧
    analyze_sanitize_phase [] [] 1 true 1 = .error "retrieval_hits_without_citations" ∧
    ∃ r, analyze_sanitize_phase [] compsC6l 1 true 1 = .ok r ∧
      r.comps_used ≠ [] ∧ r.risk_flags.count "fallback_citations_injected" = 1 ∧
      r.confidence = 11 / 20 := by
  have hfailW : sanitize_analysis_payload [] 1 true 1 =
      .error "retrieval_hits_without_citations" := rfl
  have hA := (C6_recovery [] [] 1 true 1 _ hfailW).2.1 rfl
  obtain ⟨r, h1, h2, _, _, h5, h6, _⟩ :=
    (C6_recovery [] compsC6l 1 true 1 _ hfailW).2.2
      [fbCitation (PyVal.str "c1") PyVal.none] rfl (by simp)
      [] rfl true rfl
  exact ⟨hfailW, hA, r, h1, h2, h5, h6 rfl⟩

end Valtric
